import Mathlib

/-!
Verification model of the `node-mygram-client` native client
(`src/native/src/mygramclient.cpp`, `src/native/include/string_utils.h`).

Protocol text is modelled as `List Char` (one entry per byte/codepoint; all
protocol keywords are ASCII, so byte-level and codepoint-level views agree on
every comparison the code performs).  Stream extraction mirrors
`std::istringstream`, numeric conversions mirror `std::stoul` / `std::stoull` /
`std::stod` (exceptions are modelled as an explicit `exn` outcome), and each
client operation's response handling is translated clause by clause from
`MygramClient::Impl`.
-/

namespace Mygram

abbrev Str := List Char

def strOf (s : String) : Str := s.data

/-- The whitespace class used by `std::istream` token extraction
(space, `\t`, `\n`, `\v`, `\f`, `\r` in the default locale). -/
def isWS (c : Char) : Bool :=
  c == ' ' || c == '\t' || c == '\n' || c == '\x0b' || c == '\x0c' || c == '\r'

/-- Decimal digit test (`'0' ≤ c ≤ '9'`). -/
def isDigitC (c : Char) : Bool := 48 ≤ c.toNat && c.toNat ≤ 57

/-- Value of a decimal digit string, most significant digit first. -/
def natOfDigits (l : Str) : Nat := l.foldl (fun a c => 10 * a + (c.toNat - 48)) 0

/-- Models `response.find(pre) == 0`: the first `pre.length` characters of the
subject equal `pre`. -/
def hasPref : Str → Str → Bool
  | [], _ => true
  | _ :: _, [] => false
  | p :: ps, c :: cs => p == c && hasPref ps cs

/-- Models `s.substr(pos)`: `none` when `pos > s.size()` (C++ throws
`std::out_of_range` there). -/
def substrFrom (s : Str) (pos : Nat) : Option Str :=
  if pos ≤ s.length then some (s.drop pos) else none

/-- Splits a leading `'-'` or `'+'` sign off a character sequence, as the
numeric conversions do. -/
def splitSign (l : Str) : Bool × Str :=
  match l with
  | c :: rest => if c == '-' then (true, rest) else if c == '+' then (false, rest) else (false, l)
  | [] => (false, l)

/-- State of a `std::istringstream`: remaining characters plus the fail bit. -/
structure Istream where
  data : Str
  failed : Bool
deriving DecidableEq

/-- Models `iss >> token` for a `std::string` target: skip whitespace, then
take the maximal non-whitespace run; sets the fail bit at end of input. -/
def readTokenI (s : Istream) : Str × Istream :=
  if s.failed then ([], s)
  else
    let l := s.data.dropWhile isWS
    if l.isEmpty then ([], ⟨l, true⟩)
    else (l.takeWhile (fun c => !isWS c), ⟨l.dropWhile (fun c => !isWS c), false⟩)

/-- Models `iss >> (uint64_t&)`: skip whitespace, optional sign (a `'-'` wraps
modulo 2^64), then the maximal decimal-digit run.  On failure C++11 stores 0
(no digits) or `ULLONG_MAX` (overflow) and sets the fail bit. -/
def readU64I (s : Istream) : Nat × Istream :=
  if s.failed then (0, s)
  else
    let l := s.data.dropWhile isWS
    let sgn := splitSign l
    let ds := sgn.2.takeWhile isDigitC
    if ds.isEmpty then (0, ⟨l, true⟩)
    else
      let v := natOfDigits ds
      if 2 ^ 64 ≤ v then (2 ^ 64 - 1, ⟨sgn.2.drop ds.length, true⟩)
      else ((if sgn.1 then (2 ^ 64 - v % 2 ^ 64) % 2 ^ 64 else v), ⟨sgn.2.drop ds.length, false⟩)

/-- Models one `std::getline(iss, line)` call: reads up to and consuming the
next `'\n'`; fails (leaving an empty string) at end of input. -/
def getlineI (s : Istream) : Str × Istream :=
  if s.failed then ([], s)
  else if s.data.isEmpty then ([], ⟨s.data, true⟩)
  else
    let line := s.data.takeWhile (fun c => !(c == '\n'))
    let rest := s.data.drop line.length
    let rest2 := match rest with
      | '\n' :: t => t
      | _ => rest
    (line, ⟨rest2, false⟩)

/-- Accumulator loop behind `wordsOf`. -/
def wordsAux : Str → Str → List Str
  | [], acc => if acc.isEmpty then [] else [acc.reverse]
  | c :: cs, acc =>
    if isWS c then (if acc.isEmpty then wordsAux cs [] else acc.reverse :: wordsAux cs [])
    else wordsAux cs (c :: acc)

/-- All whitespace-separated tokens of a character sequence: the result of the
`while (iss >> token)` loops. -/
def wordsOf (l : Str) : List Str := wordsAux l []

/-- Models `while (iss >> token) tokens.push_back(token)` starting from a
stream state: a failed stream yields nothing. -/
def readAllTokens (s : Istream) : List Str := if s.failed then [] else wordsOf s.data

/-- Accumulator loop behind `linesBy` (`std::getline` with a delimiter:
segments between delimiters, no trailing empty segment). -/
def linesByAux (delim : Char) : Str → Str → List Str
  | [], acc => [acc.reverse]
  | c :: cs, acc =>
    if c == delim then acc.reverse :: (if cs.isEmpty then [] else linesByAux delim cs [])
    else linesByAux delim cs (c :: acc)

/-- All segments produced by a `while (std::getline(iss, seg, delim))` loop. -/
def linesBy (delim : Char) (l : Str) : List Str :=
  if l.isEmpty then [] else linesByAux delim l []

/-- Finds the first `'='` and splits a `key=value` token; `none` when the
token has no `'='` (source: `token.find('=')`). -/
def splitEq (t : Str) : Option (Str × Str) :=
  match t.findIdx? (fun c => c == '=') with
  | some pos => some (t.take pos, t.drop (pos + 1))
  | none => none

/-- Source: `ParseKeyValuePairs` — every whitespace-separated token containing
an `'='`, split at its first `'='`. -/
def ParseKeyValuePairs (s : Str) : List (Str × Str) :=
  (wordsOf s).filterMap splitEq

/-- Models `std::stoull(value)` (and `std::stoul`, whose range on LP64 is the
same): skip whitespace, optional sign (`'-'` wraps modulo 2^64), decimal
digits; `invalid_argument` when no digits, `out_of_range` past `ULLONG_MAX`;
trailing non-digits are ignored. -/
def stoullM (s : Str) : Except String Nat :=
  let l := s.dropWhile isWS
  let sgn := splitSign l
  let ds := sgn.2.takeWhile isDigitC
  if ds.isEmpty then .error "invalid_argument"
  else
    let v := natOfDigits ds
    if 2 ^ 64 ≤ v then .error "out_of_range"
    else .ok (if sgn.1 then (2 ^ 64 - v % 2 ^ 64) % 2 ^ 64 else v)

/-- Models `std::stoul`. -/
def stoulM (s : Str) : Except String Nat := stoullM s

/-- Models `std::stod` on the decimal forms the protocol produces: optional
sign, integer digits, optional `.` fraction, optional `e`/`E` exponent
(ignored when not followed by digits, as in C++ partial matching); the value is
kept exactly as a rational.  `invalid_argument` when no digits at all;
trailing non-numeric text is ignored. -/
def stodM (s : Str) : Except String ℚ :=
  let l := s.dropWhile isWS
  let sgn := splitSign l
  let ipart := sgn.2.takeWhile isDigitC
  let l3 := sgn.2.drop ipart.length
  let fpair : Str × Str :=
    match l3 with
    | '.' :: rest => (rest.takeWhile isDigitC, rest.dropWhile isDigitC)
    | _ => ([], l3)
  let fpart := fpair.1
  if ipart.isEmpty && fpart.isEmpty then .error "invalid_argument"
  else
    let mant : ℚ := (natOfDigits ipart : ℚ) + (natOfDigits fpart : ℚ) / ((10 : ℚ) ^ fpart.length)
    let ex : ℤ :=
      match fpair.2 with
      | c :: rest =>
        if c == 'e' || c == 'E' then
          let esgn := splitSign rest
          let eds := esgn.2.takeWhile isDigitC
          if eds.isEmpty then 0
          else if esgn.1 then -(natOfDigits eds : ℤ) else (natOfDigits eds : ℤ)
        else 0
      | [] => 0
    .ok ((if sgn.1 then -mant else mant) * (10 : ℚ) ^ ex)

/-- The optional debug block of a response.  The repository's header
(`mygramclient.h`) is not under `src/`; per the spec (§3) every field is
optional with "absent ≠ zero", which also matches how the `.cpp` assigns
them. -/
structure DebugInfo where
  query_time_ms : Option ℚ := none
  index_time_ms : Option ℚ := none
  filter_time_ms : Option ℚ := none
  terms : Option Nat := none
  ngrams : Option Nat := none
  candidates : Option Nat := none
  after_intersection : Option Nat := none
  after_not : Option Nat := none
  after_filters : Option Nat := none
  final : Option Nat := none
  optimization : Option Str := none
deriving DecidableEq

/-- One iteration of the `ParseDebugInfo` loop body: tokens without `'='` are
skipped, known keys are converted (conversion failures escape as C++
exceptions), unknown keys are ignored.  `terms`/`ngrams` go through
`static_cast<uint32_t>(std::stoul(...))`, hence the reduction modulo 2^32. -/
def updateDebug (info : DebugInfo) (token : Str) : Except String DebugInfo :=
  match splitEq token with
  | none => .ok info
  | some (key, value) =>
    if key == strOf "query_time" then (stodM value).map fun v => { info with query_time_ms := some v }
    else if key == strOf "index_time" then (stodM value).map fun v => { info with index_time_ms := some v }
    else if key == strOf "filter_time" then (stodM value).map fun v => { info with filter_time_ms := some v }
    else if key == strOf "terms" then (stoulM value).map fun v => { info with terms := some (v % 2 ^ 32) }
    else if key == strOf "ngrams" then (stoulM value).map fun v => { info with ngrams := some (v % 2 ^ 32) }
    else if key == strOf "candidates" then (stoullM value).map fun v => { info with candidates := some v }
    else if key == strOf "after_intersection" then (stoullM value).map fun v => { info with after_intersection := some v }
    else if key == strOf "after_not" then (stoullM value).map fun v => { info with after_not := some v }
    else if key == strOf "after_filters" then (stoullM value).map fun v => { info with after_filters := some v }
    else if key == strOf "final" then (stoullM value).map fun v => { info with final := some v }
    else if key == strOf "optimization" then .ok { info with optimization := some value }
    else .ok info

/-- The `for (size_t i = start_index + 1; ...)` loop of `ParseDebugInfo`. -/
def foldDebug (info : DebugInfo) : List Str → Except String DebugInfo
  | [] => .ok info
  | t :: ts =>
    match updateDebug info t with
    | .error e => .error e
    | .ok info2 => foldDebug info2 ts

/-- Source: `ParseDebugInfo(tokens, start_index)` — `nullopt` unless the token
at `start_index` is literally `DEBUG`; then every later token is folded in. -/
def ParseDebugInfo (tokens : List Str) (start : Nat) : Except String (Option DebugInfo) :=
  if tokens[start]? == some (strOf "DEBUG") then
    match foldDebug {} (tokens.drop (start + 1)) with
    | .ok info => .ok (some info)
    | .error e => .error e
  else .ok none

/-- The character class that forces quoting in `EscapeQueryString`. -/
def needsQuoteChar (c : Char) : Bool :=
  c == ' ' || c == '\t' || c == '\n' || c == '\r' || c == '"' || c == '\''

/-- The quoting loop of `EscapeQueryString`: each `'"'` or `'\'` is preceded
by a backslash. -/
def escBody : Str → Str
  | [] => []
  | c :: cs => (if c == '"' || c == '\\' then ['\\', c] else [c]) ++ escBody cs

/-- Source: `EscapeQueryString` — returned unchanged unless some character is
space/tab/newline/carriage-return/double-quote/single-quote, in which case the
string is wrapped in double quotes with the escaping loop applied. -/
def escapeQueryString (s : Str) : Str :=
  if s.any needsQuoteChar then '"' :: escBody s ++ ['"'] else s

/-- Decimal rendering of a number, as `std::ostringstream` prints it. -/
def natStr (n : Nat) : Str := (Nat.repr n).data

/-- Source: the command-building prefix of `MygramClient::Impl::Search`
(`SEARCH <table> <query>` plus AND/NOT/FILTER/SORT/LIMIT clauses). -/
def buildSearchCommand (table query : Str) (limit offset : Nat)
    (and_terms not_terms : List Str) (filters : List (Str × Str))
    (sort_column : Str) (sort_desc : Bool) : Str :=
  strOf "SEARCH " ++ table ++ [' '] ++ escapeQueryString query
  ++ (and_terms.flatMap fun t => strOf " AND " ++ escapeQueryString t)
  ++ (not_terms.flatMap fun t => strOf " NOT " ++ escapeQueryString t)
  ++ (filters.flatMap fun kv => strOf " FILTER " ++ kv.1 ++ strOf " = " ++ escapeQueryString kv.2)
  ++ (if !sort_column.isEmpty then
        strOf " SORT " ++ sort_column ++ (if sort_desc then strOf " DESC" else strOf " ASC")
      else if !sort_desc then strOf " SORT ASC" else [])
  ++ (if limit > 0 && offset > 0 then strOf " LIMIT " ++ natStr offset ++ [','] ++ natStr limit
      else if limit > 0 then strOf " LIMIT " ++ natStr limit
      else [])

/-- Outcome of one client operation once the response text is in hand.
`ok` is the success alternative of the C++ return type (for
`variant<string, Error>` operations, the `string` alternative; for
`optional<string>` operations, `nullopt`), `err` is the error alternative
carrying the message (the header with the `Error` type is not under `src/`;
per the spec it is a kind plus message, and the `.cpp` only ever supplies the
message), and `exn` is a C++ exception escaping the call. -/
inductive OpOut (α : Type) where
  | ok (a : α)
  | err (msg : Str)
  | exn (what : String)
deriving DecidableEq

/-- The two lines repeated at the top of every response handler:
`if (response.find("ERROR") == 0) return …(response.substr(kErrorPrefixLen))`
with `kErrorPrefixLen = 6`. -/
inductive ErrCheck where
  | noErr
  | srvErr (msg : Str)
  | thrown (what : String)
deriving DecidableEq

def checkSrvError (resp : Str) : ErrCheck :=
  if hasPref (strOf "ERROR") resp then
    match substrFrom resp 6 with
    | some m => .srvErr m
    | none => .thrown "out_of_range"
  else .noErr

structure SearchResponse where
  total_count : Nat
  results : List Str
  debug : Option DebugInfo
deriving DecidableEq

structure CountResponse where
  count : Nat
  debug : Option DebugInfo
deriving DecidableEq

structure Document where
  primary_key : Str
  fields : List (Str × Str)
deriving DecidableEq

structure ServerInfo where
  version : Str := []
  uptime_seconds : Nat := 0
  total_requests : Nat := 0
  active_connections : Nat := 0
  index_size_bytes : Nat := 0
  doc_count : Nat := 0
  tables : List Str := []
deriving DecidableEq

structure ReplicationStatus where
  running : Bool := false
  gtid : Str := []
  status_str : Str := []
deriving DecidableEq

def unexpectedMsg : Str := strOf "Unexpected response format"

/-- Index of the first literal `DEBUG` token (the `for` loop that sets
`debug_index`, defaulting to `tokens.size()`). -/
def debugIndex (tokens : List Str) : Nat := tokens.findIdx (fun t => t == strOf "DEBUG")

/-- Source: the response-handling part of `MygramClient::Impl::Search`. -/
def searchHandle (resp : Str) : OpOut SearchResponse :=
  match checkSrvError resp with
  | .srvErr m => .err m
  | .thrown w => .exn w
  | .noErr =>
    if hasPref (strOf "OK RESULTS") resp then
      let s0 : Istream := ⟨resp, false⟩
      let r1 := readTokenI s0
      let r2 := readTokenI r1.2
      let r3 := readU64I r2.2
      let tokens := readAllTokens r3.2
      let dIdx := debugIndex tokens
      let results := tokens.take dIdx
      if dIdx < tokens.length then
        match ParseDebugInfo tokens dIdx with
        | .error e => .exn e
        | .ok d => .ok ⟨r3.1, results, d⟩
      else .ok ⟨r3.1, results, none⟩
    else .err unexpectedMsg

/-- Source: the response-handling part of `MygramClient::Impl::Count`. -/
def countHandle (resp : Str) : OpOut CountResponse :=
  match checkSrvError resp with
  | .srvErr m => .err m
  | .thrown w => .exn w
  | .noErr =>
    if hasPref (strOf "OK COUNT") resp then
      let s0 : Istream := ⟨resp, false⟩
      let r1 := readTokenI s0
      let r2 := readTokenI r1.2
      let r3 := readU64I r2.2
      let tokens := readAllTokens r3.2
      match tokens with
      | t :: _ =>
        if t == strOf "DEBUG" then
          match ParseDebugInfo tokens 0 with
          | .error e => .exn e
          | .ok d => .ok ⟨r3.1, d⟩
        else .ok ⟨r3.1, none⟩
      | [] => .ok ⟨r3.1, none⟩
    else .err unexpectedMsg

/-- Source: the response-handling part of `MygramClient::Impl::Get`. -/
def getHandle (resp : Str) : OpOut Document :=
  match checkSrvError resp with
  | .srvErr m => .err m
  | .thrown w => .exn w
  | .noErr =>
    if hasPref (strOf "OK DOC") resp then
      let s0 : Istream := ⟨resp, false⟩
      let r1 := readTokenI s0
      let r2 := readTokenI r1.2
      let r3 := readTokenI r2.2
      let r4 := getlineI r3.2
      .ok ⟨r3.1, ParseKeyValuePairs r4.1⟩
    else .err unexpectedMsg

/-- Value trimming in `Info` (`find_first_not_of`/`find_last_not_of` of
`" \t\r\n"`; when everything is whitespace the value is left untouched). -/
def isTrimWS (c : Char) : Bool := c == ' ' || c == '\t' || c == '\r' || c == '\n'

def trimValue (v : Str) : Str :=
  if v.all isTrimWS then v
  else ((v.dropWhile isTrimWS).reverse.dropWhile isTrimWS).reverse

/-- One iteration of the `Info` line loop: skip blank/`#`/`\r` lines, split at
the first `':'`, trim the value, and dispatch on the key (numeric keys go
through `std::stoull`, whose failures escape as exceptions; `tables` is
comma-split dropping empty entries). -/
def infoLineApply (info : ServerInfo) (line : Str) : Except String ServerInfo :=
  if line.isEmpty then .ok info
  else if line.head? == some '#' || line.head? == some '\r' then .ok info
  else
    match line.findIdx? (fun c => c == ':') with
    | none => .ok info
    | some pos =>
      let key := line.take pos
      let value := trimValue (line.drop (pos + 1))
      if key == strOf "version" then .ok { info with version := value }
      else if key == strOf "uptime_seconds" then (stoullM value).map fun v => { info with uptime_seconds := v }
      else if key == strOf "total_requests" then (stoullM value).map fun v => { info with total_requests := v }
      else if key == strOf "active_connections" then (stoullM value).map fun v => { info with active_connections := v }
      else if key == strOf "index_size_bytes" then (stoullM value).map fun v => { info with index_size_bytes := v }
      else if key == strOf "doc_count" || key == strOf "total_documents" then (stoullM value).map fun v => { info with doc_count := v }
      else if key == strOf "tables" then .ok { info with tables := (linesBy ',' value).filter (fun t => !t.isEmpty) }
      else .ok info

def foldInfo (info : ServerInfo) : List Str → Except String ServerInfo
  | [] => .ok info
  | l :: ls =>
    match infoLineApply info l with
    | .error e => .error e
    | .ok info2 => foldInfo info2 ls

/-- Source: the response-handling part of `MygramClient::Impl::Info` (the
`getline` loop over the multi-line response, skipping the first `OK INFO`
line). -/
def infoHandle (resp : Str) : OpOut ServerInfo :=
  match checkSrvError resp with
  | .srvErr m => .err m
  | .thrown w => .exn w
  | .noErr =>
    if hasPref (strOf "OK INFO") resp then
      match foldInfo {} ((linesBy '\n' resp).drop 1) with
      | .ok info => .ok info
      | .error e => .exn e
    else .err unexpectedMsg

/-- Source: `MygramClient::Impl::GetConfig`.  Note the `ERROR` branch returns
`response.substr(kErrorPrefixLen)` directly — the `std::string` (success)
alternative of the variant, not an `Error`. -/
def getConfigHandle (resp : Str) : OpOut Str :=
  match checkSrvError resp with
  | .srvErr m => .ok m
  | .thrown w => .exn w
  | .noErr => .ok resp

/-- Source: `MygramClient::Impl::Save`.  As in `GetConfig`, the `ERROR` branch
returns the success alternative; `kSavedPrefixLen = 9` strips `"OK SAVED "`. -/
def saveHandle (resp : Str) : OpOut Str :=
  match checkSrvError resp with
  | .srvErr m => .ok m
  | .thrown w => .exn w
  | .noErr =>
    if hasPref (strOf "OK SAVED") resp then
      match substrFrom resp 9 with
      | some r => .ok r
      | none => .exn "out_of_range"
    else .err unexpectedMsg

/-- Source: `MygramClient::Impl::Load`; `kLoadedPrefixLen = 10` strips
`"OK LOADED "`. -/
def loadHandle (resp : Str) : OpOut Str :=
  match checkSrvError resp with
  | .srvErr m => .ok m
  | .thrown w => .exn w
  | .noErr =>
    if hasPref (strOf "OK LOADED") resp then
      match substrFrom resp 10 with
      | some r => .ok r
      | none => .exn "out_of_range"
    else .err unexpectedMsg

/-- Source: `MygramClient::Impl::GetReplicationStatus` (running defaults to
`false` per the spec's data model; the header is not under `src/`). -/
def replStatusHandle (resp : Str) : OpOut ReplicationStatus :=
  match checkSrvError resp with
  | .srvErr m => .err m
  | .thrown w => .exn w
  | .noErr =>
    if hasPref (strOf "OK REPLICATION") resp then
      .ok ((ParseKeyValuePairs resp).foldl
        (fun st kv =>
          if kv.1 == strOf "status" then { st with running := kv.2 == strOf "running" }
          else if kv.1 == strOf "gtid" then { st with gtid := kv.2 }
          else st)
        { status_str := resp })
    else .err unexpectedMsg

/-- Shared body of `StopReplication` / `StartReplication` / `EnableDebug` /
`DisableDebug`: these return `optional<string>` where a present string is the
error message, so the `ERROR` branch is the failure alternative here. -/
def ackHandle (resp : Str) : OpOut Unit :=
  match checkSrvError resp with
  | .srvErr m => .err m
  | .thrown w => .exn w
  | .noErr => .ok ()

def startReplicationHandle (resp : Str) : OpOut Unit := ackHandle resp

def stopReplicationHandle (resp : Str) : OpOut Unit := ackHandle resp

def enableDebugHandle (resp : Str) : OpOut Unit := ackHandle resp

def disableDebugHandle (resp : Str) : OpOut Unit := ackHandle resp

/-- The mutable state of `MygramClient::Impl`: the socket reduced to its
connected flag (`sock_ >= 0`) and the `last_error_` slot. -/
structure ClientState where
  connected : Bool
  lastError : Str
deriving DecidableEq

/-- Environment outcomes of the syscalls inside `Connect`. -/
inductive ConnectWorld where
  | socketFail (oserr : Str)
  | badAddr
  | connectFail (oserr : Str)
  | success
deriving DecidableEq

/-- Source: `MygramClient::Impl::Connect`.  The already-connected branch
returns `"Already connected"` without touching `last_error_`; every syscall
failure stores its message in `last_error_` and leaves the socket closed. -/
def connectOp (st : ClientState) (host : Str) (w : ConnectWorld) : Option Str × ClientState :=
  if st.connected then (some (strOf "Already connected"), st)
  else
    match w with
    | .socketFail e =>
      let msg := strOf "Failed to create socket: " ++ e
      (some msg, { st with lastError := msg })
    | .badAddr =>
      let msg := strOf "Invalid address: " ++ host
      (some msg, { st with lastError := msg })
    | .connectFail e =>
      let msg := strOf "Connection failed: " ++ e
      (some msg, { st with lastError := msg })
    | .success => (none, { st with connected := true })

/-- Environment outcomes of `send`/`recv` inside `SendCommand`. -/
inductive NetWorld where
  | sendFail (oserr : Str)
  | closed
  | recvFail (oserr : Str)
  | response (raw : Str)
deriving DecidableEq

/-- The trailing `while (... == '\n' || ... == '\r') pop_back()` loop. -/
def stripCRLF (s : Str) : Str :=
  (s.reverse.dropWhile (fun c => c == '\n' || c == '\r')).reverse

/-- Source: `MygramClient::Impl::SendCommand`.  Every failure stores its
message in `last_error_`; a received response is returned with trailing
CR/LF stripped and the state untouched. -/
def sendCommandOp (st : ClientState) (w : NetWorld) : Except Str Str × ClientState :=
  if !st.connected then
    let msg := strOf "Not connected"
    (.error msg, { st with lastError := msg })
  else
    match w with
    | .sendFail e =>
      let msg := strOf "Failed to send command: " ++ e
      (.error msg, { st with lastError := msg })
    | .closed =>
      let msg := strOf "Connection closed by server"
      (.error msg, { st with lastError := msg })
    | .recvFail e =>
      let msg := strOf "Failed to receive response: " ++ e
      (.error msg, { st with lastError := msg })
    | .response raw => (.ok (stripCRLF raw), st)

/-- Source: `MygramClient::Impl::Search` end to end: build the command, run
`SendCommand`, then handle the response; the parsing stage never touches the
client state. -/
def searchOp (st : ClientState) (table query : Str) (limit offset : Nat)
    (and_terms not_terms : List Str) (filters : List (Str × Str))
    (sort_column : Str) (sort_desc : Bool) (w : NetWorld) :
    OpOut SearchResponse × ClientState :=
  let _cmd := buildSearchCommand table query limit offset and_terms not_terms filters sort_column sort_desc
  match sendCommandOp st w with
  | (.error m, st2) => (.err m, st2)
  | (.ok resp, st2) => (searchHandle resp, st2)

/-- Modelled from the spec: `GenerateNgrams` is only declared in
`src/native/include/string_utils.h` (its implementation file is not under
`src/`).  Per spec §4.2 it is the "sliding window over codepoints, all
overlapping windows"; text is modelled as its codepoint sequence. -/
def GenerateNgrams : Str → Nat → List Str
  | [], _ => []
  | c :: cs, n => if (c :: cs).length < n then [] else (c :: cs).take n :: GenerateNgrams cs n

/-- Spec-side rendering of the sort policy (§4.3): an explicit column emits
`SORT <col> <dir>`; no column with ascending requested emits `SORT ASC`; no
column with descending requested emits nothing. -/
def sortClauseSpec (sort_column : Str) (sort_desc : Bool) : Str :=
  if sort_column ≠ [] then
    strOf " SORT " ++ sort_column ++ (if sort_desc then strOf " DESC" else strOf " ASC")
  else if sort_desc = false then strOf " SORT ASC"
  else []

/-- Spec-side rendering of the limit policy (§4.3): both positive →
`LIMIT offset,limit`; limit only → `LIMIT limit`; limit zero → no clause. -/
def limitClauseSpec (limit offset : Nat) : Str :=
  if 0 < limit ∧ 0 < offset then strOf " LIMIT " ++ natStr offset ++ [','] ++ natStr limit
  else if 0 < limit then strOf " LIMIT " ++ natStr limit
  else []

/-- A well-formed protocol token: nonempty and whitespace-free. -/
def IsTok (t : Str) : Prop := t ≠ [] ∧ ∀ c ∈ t, isWS c = false

instance (t : Str) : Decidable (IsTok t) := by
  unfold IsTok; infer_instance

/-- Joins tokens, each preceded by one space (the shape of a response tail). -/
def mkTail : List Str → Str
  | [] => []
  | t :: ts => ' ' :: t ++ mkTail ts

/-- A well-formed `OK RESULTS` response: the literal head, a count token, then
space-separated tokens. -/
def mkResultsResp (ds : Str) (toks : List Str) : Str :=
  strOf "OK RESULTS " ++ ds ++ mkTail toks

/-- The keys `ParseDebugInfo` recognises. -/
def knownDebugKeys : List Str :=
  [strOf "query_time", strOf "index_time", strOf "filter_time", strOf "terms",
   strOf "ngrams", strOf "candidates", strOf "after_intersection", strOf "after_not",
   strOf "after_filters", strOf "final", strOf "optimization"]

/-- The spec's set of characters that force quoting (§8). -/
def specialChars : List Char := [' ', '\t', '\n', '\r', '"', '\'']

instance {ε α : Type} [DecidableEq ε] [DecidableEq α] : DecidableEq (Except ε α) := fun a b =>
  match a, b with
  | .error e1, .error e2 =>
    if h : e1 = e2 then .isTrue (congrArg Except.error h)
    else .isFalse fun hh => h (Except.error.inj hh)
  | .ok a1, .ok a2 =>
    if h : a1 = a2 then .isTrue (congrArg Except.ok h)
    else .isFalse fun hh => h (Except.ok.inj hh)
  | .error _, .ok _ => .isFalse fun hh => Except.noConfusion hh
  | .ok _, .error _ => .isFalse fun hh => Except.noConfusion hh

/-- The head of `l`, if any, fails the test `p`. -/
def headNot (p : Char → Bool) (l : Str) : Prop := ∀ c, l.head? = some c → p c = false

attribute [local semireducible] Rat.mul Rat.inv Rat.add Rat.sub

/-! ### Helper lemmas -/

theorem take_len_append {α : Type} (p q : List α) : (p ++ q).take p.length = p := by
  induction p with
  | nil => simp
  | cons a ps ih => simp [ih]

theorem drop_len_append {α : Type} (p q : List α) : (p ++ q).drop p.length = q := by
  induction p with
  | nil => simp
  | cons a ps ih => simp [ih]

theorem hasPref_append (p rest : Str) : hasPref p (p ++ rest) = true := by
  induction p with
  | nil => simp [hasPref]
  | cons a ps ih => simp [hasPref, ih]

theorem hasPref_ne_head {a b : Char} (ps ls : Str) (h : a ≠ b) :
    hasPref (a :: ps) (b :: ls) = false := by
  simp [hasPref, h]

theorem ws_not_digit {c : Char} (h : isWS c = true) : isDigitC c = false := by
  simp only [isWS, Bool.or_eq_true, beq_iff_eq] at h
  rcases h with ((((h | h) | h) | h) | h) | h <;> subst h <;> decide

theorem digit_not_ws {c : Char} (h : isDigitC c = true) : isWS c = false := by
  cases hw : isWS c
  · rfl
  · rw [ws_not_digit hw] at h; exact absurd h (by simp)

theorem digit_ne_dash {c : Char} (h : isDigitC c = true) : (c == '-') = false := by
  cases hd : (c == '-')
  · rfl
  · exfalso; have hc : c = '-' := eq_of_beq hd
    subst hc; exact absurd h (by decide)

theorem digit_ne_plus {c : Char} (h : isDigitC c = true) : (c == '+') = false := by
  cases hd : (c == '+')
  · rfl
  · exfalso; have hc : c = '+' := eq_of_beq hd
    subst hc; exact absurd h (by decide)

theorem takeWhile_append_of {p : Char → Bool} (ds rest : Str)
    (h1 : ∀ c ∈ ds, p c = true) (h2 : headNot p rest) :
    (ds ++ rest).takeWhile p = ds := by
  induction ds with
  | nil =>
    cases rest with
    | nil => rfl
    | cons c cs => simp [List.takeWhile_cons, h2 c rfl]
  | cons a as ih =>
    simp only [List.cons_append, List.takeWhile_cons, h1 a (by simp), if_true]
    rw [ih (fun c hc => h1 c (by simp [hc]))]

theorem dropWhile_append_of {p : Char → Bool} (ds rest : Str)
    (h1 : ∀ c ∈ ds, p c = true) (h2 : headNot p rest) :
    (ds ++ rest).dropWhile p = rest := by
  induction ds with
  | nil =>
    cases rest with
    | nil => rfl
    | cons c cs => simp [List.dropWhile_cons, h2 c rfl]
  | cons a as ih =>
    simp only [List.cons_append, List.dropWhile_cons, h1 a (by simp), if_true]
    exact ih (fun c hc => h1 c (by simp [hc]))

theorem readTokenI_ws (l : Str) : readTokenI ⟨' ' :: l, false⟩ = readTokenI ⟨l, false⟩ := by
  simp [readTokenI, List.dropWhile_cons, show isWS ' ' = true from rfl]

theorem readTokenI_tok (t rest : Str) (h1 : t ≠ []) (h2 : ∀ c ∈ t, isWS c = false)
    (h3 : headNot (fun c => !isWS c) rest) :
    readTokenI ⟨t ++ rest, false⟩ = (t, ⟨rest, false⟩) := by
  cases t with
  | nil => exact absurd rfl h1
  | cons c t' =>
    have hc : isWS c = false := h2 c (by simp)
    have hall : ∀ x ∈ c :: t', (!isWS x) = true := fun x hx => by simp [h2 x hx]
    have hdrop : List.dropWhile isWS (c :: (t' ++ rest)) = c :: (t' ++ rest) := by
      rw [List.dropWhile_cons, if_neg (by simp [hc])]
    have htake : List.takeWhile (fun x => !isWS x) (c :: (t' ++ rest)) = c :: t' := by
      have := takeWhile_append_of (c :: t') rest hall h3
      simpa using this
    have hdw : List.dropWhile (fun x => !isWS x) (c :: (t' ++ rest)) = rest := by
      have := dropWhile_append_of (c :: t') rest hall h3
      simpa using this
    simp only [readTokenI, List.cons_append, Bool.false_eq_true, if_false, hdrop, htake, hdw,
      List.isEmpty_cons]

theorem readU64I_ws (l : Str) : readU64I ⟨' ' :: l, false⟩ = readU64I ⟨l, false⟩ := by
  simp [readU64I, List.dropWhile_cons, show isWS ' ' = true from rfl]

theorem headNot_digit_of_ws {rest : Str} (h : headNot (fun c => !isWS c) rest) :
    headNot isDigitC rest := by
  intro c hc
  have := h c hc
  simp only [Bool.not_eq_false'] at this
  exact ws_not_digit this

theorem readU64I_digits (ds rest : Str) (h1 : ds ≠ []) (h2 : ∀ c ∈ ds, isDigitC c = true)
    (h3 : headNot isDigitC rest) (h4 : natOfDigits ds < 2 ^ 64) :
    readU64I ⟨ds ++ rest, false⟩ = (natOfDigits ds, ⟨rest, false⟩) := by
  cases ds with
  | nil => exact absurd rfl h1
  | cons c ds' =>
    have hc : isDigitC c = true := h2 c (by simp)
    have hdrop : List.dropWhile isWS (c :: (ds' ++ rest)) = c :: (ds' ++ rest) := by
      rw [List.dropWhile_cons, if_neg (by simp [digit_not_ws hc])]
    have hsign : splitSign (c :: (ds' ++ rest)) = (false, c :: (ds' ++ rest)) := by
      simp [splitSign, digit_ne_dash hc, digit_ne_plus hc]
    have htake : List.takeWhile isDigitC (c :: (ds' ++ rest)) = c :: ds' := by
      have := takeWhile_append_of (c :: ds') rest h2 h3
      simpa using this
    have hdl : List.drop (c :: ds').length (c :: (ds' ++ rest)) = rest := by
      have := drop_len_append (c :: ds') rest
      simpa using this
    simp only [readU64I, List.cons_append, Bool.false_eq_true, if_false, hdrop, hsign, htake,
      List.isEmpty_cons, hdl, if_neg (show ¬ 2 ^ 64 ≤ natOfDigits (c :: ds') by omega)]

theorem wordsAux_nil (acc : Str) :
    wordsAux [] acc = if acc.isEmpty then [] else [acc.reverse] := rfl

theorem wordsAux_cons (c : Char) (cs acc : Str) :
    wordsAux (c :: cs) acc =
      if isWS c then (if acc.isEmpty then wordsAux cs [] else acc.reverse :: wordsAux cs [])
      else wordsAux cs (c :: acc) := rfl

theorem wordsAux_ws_nil (l : Str) : wordsAux (' ' :: l) [] = wordsAux l [] := by
  rw [wordsAux_cons]
  simp [show isWS ' ' = true from rfl]

theorem wordsAux_consume (t : Str) (h : ∀ c ∈ t, isWS c = false) :
    ∀ rest acc, wordsAux (t ++ rest) acc = wordsAux rest (t.reverse ++ acc) := by
  induction t with
  | nil => intro rest acc; simp
  | cons c t' ih =>
    intro rest acc
    have hc : isWS c = false := h c (by simp)
    rw [List.cons_append, wordsAux_cons, if_neg (by simp [hc])]
    rw [ih (fun x hx => h x (by simp [hx])) rest (c :: acc)]
    simp

theorem wordsAux_flush (ts : List Str) (acc : Str) (hacc : acc ≠ []) :
    wordsAux (mkTail ts) acc = acc.reverse :: wordsAux (mkTail ts) [] := by
  obtain ⟨a, as, rfl⟩ : ∃ a as, acc = a :: as := by
    cases acc with
    | nil => exact absurd rfl hacc
    | cons a as => exact ⟨a, as, rfl⟩
  cases ts with
  | nil => simp [mkTail, wordsAux_nil]
  | cons t ts' =>
    simp only [mkTail, List.cons_append]
    rw [wordsAux_cons, wordsAux_cons]
    simp [show isWS ' ' = true from rfl]

theorem wordsOf_mkTail (toks : List Str) (h : ∀ t ∈ toks, IsTok t) :
    wordsOf (mkTail toks) = toks := by
  induction toks with
  | nil => rfl
  | cons t ts ih =>
    obtain ⟨ht1, ht2⟩ := h t (by simp)
    show wordsAux (' ' :: (t ++ mkTail ts)) [] = t :: ts
    rw [wordsAux_ws_nil, wordsAux_consume t ht2 (mkTail ts) []]
    rw [wordsAux_flush ts (t.reverse ++ []) (by simp [ht1])]
    rw [show wordsAux (mkTail ts) [] = wordsOf (mkTail ts) from rfl]
    rw [ih (fun u hu => h u (by simp [hu]))]
    simp

theorem findIdx_all_false {α : Type} (l : List α) (p : α → Bool)
    (h : ∀ a ∈ l, p a = false) : l.findIdx p = l.length := by
  induction l with
  | nil => rfl
  | cons a as ih =>
    rw [List.findIdx_cons]
    simp [h a (by simp), ih (fun x hx => h x (by simp [hx]))]

theorem findIdx_append_mark {α : Type} (ids : List α) (x : α) (rest : List α) (p : α → Bool)
    (h : ∀ a ∈ ids, p a = false) (hx : p x = true) :
    (ids ++ x :: rest).findIdx p = ids.length := by
  induction ids with
  | nil => simp [List.findIdx_cons, hx]
  | cons a as ih =>
    rw [List.cons_append, List.findIdx_cons]
    simp only [h a (by simp), cond_false]
    rw [ih (fun y hy => h y (by simp [hy]))]
    rfl

theorem getElem?_append_mark {α : Type} (ids : List α) (x : α) (rest : List α) :
    (ids ++ x :: rest)[ids.length]? = some x := by
  induction ids with
  | nil => simp
  | cons a as ih => simpa using ih

theorem drop_append_mark {α : Type} (ids : List α) (x : α) (rest : List α) :
    (ids ++ x :: rest).drop (ids.length + 1) = rest := by
  induction ids with
  | nil => simp
  | cons a as ih => simpa using ih

theorem hasPref_ERROR_O (l : Str) : hasPref (strOf "ERROR") ('O' :: l) = false := by
  rw [show strOf "ERROR" = 'E' :: strOf "RROR" by decide]
  exact hasPref_ne_head _ _ (by decide)

theorem checkSrvError_noErr {resp : Str} (h : hasPref (strOf "ERROR") resp = false) :
    checkSrvError resp = .noErr := by
  simp [checkSrvError, h]

theorem checkSrvError_err {resp : Str} (h : hasPref (strOf "ERROR") resp = true)
    (h6 : 6 ≤ resp.length) : checkSrvError resp = .srvErr (resp.drop 6) := by
  simp [checkSrvError, h, substrFrom, h6]

/-! ### Claim theorems -/

/-- C1.  On the response `ERROR no such table`, the nine operations that wrap
their error in the `Error` alternative (or signal it through the
`optional<string>` channel) do return it as an error carrying `no such table`
— but `GetConfig`, `Save` and `Load` return the *success* (`std::string`)
alternative of their variant carrying that same message, contradicting the
claim that every operation yields a ServerError and never a success value. -/
theorem C1_error_response_dispatch :
    searchHandle (strOf "ERROR no such table") = .err (strOf "no such table")
    ∧ countHandle (strOf "ERROR no such table") = .err (strOf "no such table")
    ∧ getHandle (strOf "ERROR no such table") = .err (strOf "no such table")
    ∧ infoHandle (strOf "ERROR no such table") = .err (strOf "no such table")
    ∧ replStatusHandle (strOf "ERROR no such table") = .err (strOf "no such table")
    ∧ startReplicationHandle (strOf "ERROR no such table") = .err (strOf "no such table")
    ∧ stopReplicationHandle (strOf "ERROR no such table") = .err (strOf "no such table")
    ∧ enableDebugHandle (strOf "ERROR no such table") = .err (strOf "no such table")
    ∧ disableDebugHandle (strOf "ERROR no such table") = .err (strOf "no such table")
    ∧ getConfigHandle (strOf "ERROR no such table") = .ok (strOf "no such table")
    ∧ saveHandle (strOf "ERROR no such table") = .ok (strOf "no such table")
    ∧ loadHandle (strOf "ERROR no such table") = .ok (strOf "no such table") := by
  decide

/-- C6 counterexample.  The second `Connect()` on an open connection fails
with the message `Already connected` (capital A), not the claimed
`already connected`. -/
theorem C6_counterexample :
    connectOp ⟨true, []⟩ (strOf "127.0.0.1") ConnectWorld.success
      = (some (strOf "Already connected"), ⟨true, []⟩)
    ∧ strOf "Already connected" ≠ strOf "already connected" := by
  decide

/-- C6 (amended).  Calling `Connect()` while a connection is already open
fails that call with the message `Already connected` and leaves the first
connection intact: the state (socket included) is unchanged and
`IsConnected()` still reports true. -/
theorem C6_connect_already_connected (st : ClientState) (host : Str) (w : ConnectWorld)
    (h : st.connected = true) :
    connectOp st host w = (some (strOf "Already connected"), st)
    ∧ (connectOp st host w).2.connected = true := by
  simp [connectOp, h]

/-- C6 witness. -/
theorem C6_witness :
    (⟨true, strOf "x"⟩ : ClientState).connected = true
    ∧ connectOp ⟨true, strOf "x"⟩ (strOf "h") ConnectWorld.badAddr
        = (some (strOf "Already connected"), ⟨true, strOf "x"⟩) :=
  ⟨rfl, (C6_connect_already_connected ⟨true, strOf "x"⟩ (strOf "h") ConnectWorld.badAddr rfl).1⟩

/-- C7 counterexample.  The already-connected failure of `Connect()` returns
the error message `Already connected` while `last_error_` keeps its previous
value, so `GetLastError()` does not equal the message of the error just
returned. -/
theorem C7_counterexample :
    (connectOp ⟨true, strOf "prior"⟩ (strOf "h") ConnectWorld.success).1
        = some (strOf "Already connected")
    ∧ (connectOp ⟨true, strOf "prior"⟩ (strOf "h") ConnectWorld.success).2.lastError
        = strOf "prior"
    ∧ strOf "prior" ≠ strOf "Already connected" := by
  decide

/-- C7 (amended).  The last-error slot is updated, consistently with the
returned message, by every `SendCommand` failure and by every syscall-failure
path of `Connect`; but the already-connected failure of `Connect` and the
response-handling failure paths of the facade operations (server `ERROR`
responses included) leave the slot unchanged. -/
theorem C7_last_error_slot :
    (∀ (st : ClientState) (w : NetWorld) (m : Str),
        (sendCommandOp st w).1 = .error m → (sendCommandOp st w).2.lastError = m)
    ∧ (∀ (st : ClientState) (host : Str) (w : ConnectWorld) (m : Str),
        st.connected = false → (connectOp st host w).1 = some m →
          (connectOp st host w).2.lastError = m)
    ∧ (∀ (st : ClientState) (host : Str) (w : ConnectWorld), st.connected = true →
        (connectOp st host w).1 = some (strOf "Already connected")
        ∧ (connectOp st host w).2.lastError = st.lastError)
    ∧ (∀ (st : ClientState) (raw table query : Str) (limit offset : Nat)
        (aT nT : List Str) (fs : List (Str × Str)) (sc : Str) (sd : Bool),
        st.connected = true →
          (searchOp st table query limit offset aT nT fs sc sd (.response raw)).2 = st) := by
  refine ⟨?_, ?_, ?_, ?_⟩
  · intro st w m h
    by_cases hc : st.connected
    · cases w <;> simp [sendCommandOp, hc] at h ⊢ <;> exact h
    · simp only [Bool.not_eq_true] at hc
      simp [sendCommandOp, hc] at h ⊢
      exact h
  · intro st host w m h hm
    cases w <;> simp_all [connectOp]
  · intro st host w h
    simp [connectOp, h]
  · intro st raw table query limit offset aT nT fs sc sd h
    simp [searchOp, sendCommandOp, h]

/-- C7 witness. -/
theorem C7_witness :
    (sendCommandOp ⟨false, strOf "x"⟩ NetWorld.closed).1 = .error (strOf "Not connected")
    ∧ (sendCommandOp ⟨false, strOf "x"⟩ NetWorld.closed).2.lastError = strOf "Not connected" :=
  ⟨by decide, C7_last_error_slot.1 ⟨false, strOf "x"⟩ NetWorld.closed (strOf "Not connected")
    (by decide)⟩

/-- C8.  A response `OK SAVED <path>` makes `Save` return everything after
the 9-character prefix verbatim, and `OK LOADED <path>` makes `Load` return
everything after the 10-character prefix verbatim. -/
theorem C8_save_load_prefix (rest : Str) :
    saveHandle (strOf "OK SAVED " ++ rest) = .ok rest
    ∧ loadHandle (strOf "OK LOADED " ++ rest) = .ok rest := by
  constructor
  · have hcons : strOf "OK SAVED " ++ rest = 'O' :: (strOf "K SAVED " ++ rest) := by
      rw [show strOf "OK SAVED " = 'O' :: strOf "K SAVED " by decide]
      rfl
    have hErr : hasPref (strOf "ERROR") (strOf "OK SAVED " ++ rest) = false := by
      rw [hcons]; exact hasPref_ERROR_O _
    have hOk : hasPref (strOf "OK SAVED") (strOf "OK SAVED " ++ rest) = true := by
      rw [show strOf "OK SAVED " = strOf "OK SAVED" ++ [' '] by decide, List.append_assoc]
      exact hasPref_append _ _
    have hsub : substrFrom (strOf "OK SAVED " ++ rest) 9 = some rest := by
      have hlen : (strOf "OK SAVED ").length = 9 := by decide
      have hle : 9 ≤ (strOf "OK SAVED " ++ rest).length := by
        rw [List.length_append, hlen]; omega
      rw [substrFrom, if_pos hle, show (9 : Nat) = (strOf "OK SAVED ").length from hlen.symm,
        drop_len_append]
    rw [saveHandle, checkSrvError_noErr hErr]
    simp [hOk, hsub]
  · have hcons : strOf "OK LOADED " ++ rest = 'O' :: (strOf "K LOADED " ++ rest) := by
      rw [show strOf "OK LOADED " = 'O' :: strOf "K LOADED " by decide]
      rfl
    have hErr : hasPref (strOf "ERROR") (strOf "OK LOADED " ++ rest) = false := by
      rw [hcons]; exact hasPref_ERROR_O _
    have hOk : hasPref (strOf "OK LOADED") (strOf "OK LOADED " ++ rest) = true := by
      rw [show strOf "OK LOADED " = strOf "OK LOADED" ++ [' '] by decide, List.append_assoc]
      exact hasPref_append _ _
    have hsub : substrFrom (strOf "OK LOADED " ++ rest) 10 = some rest := by
      have hlen : (strOf "OK LOADED ").length = 10 := by decide
      have hle : 10 ≤ (strOf "OK LOADED " ++ rest).length := by
        rw [List.length_append, hlen]; omega
      rw [substrFrom, if_pos hle, show (10 : Nat) = (strOf "OK LOADED ").length from hlen.symm,
        drop_len_append]
    rw [loadHandle, checkSrvError_noErr hErr]
    simp [hOk, hsub]

/-- C10 counterexample.  `ERRORS detected` is classified as a server error,
but the reported message is ` detected` (six characters — `ERRORS` — are
removed), not the claimed `S detected`. -/
theorem C10_counterexample :
    searchHandle (strOf "ERRORS detected") = .err (strOf " detected")
    ∧ strOf " detected" ≠ strOf "S detected" := by
  decide

/-- C10 (amended).  Every operation classifies a response as a server error
exactly when its first five characters are `ERROR` (no following space
required), and the reported message is the response with its first six
characters removed; `ERRORS detected` therefore yields the message
` detected` (with a leading space), and for a response shorter than six
characters such as exactly `ERROR` the six-character removal is out of range
(`std::out_of_range` escapes). -/
theorem C10_error_classification :
    (∀ resp : Str, checkSrvError resp = .noErr ↔ hasPref (strOf "ERROR") resp = false)
    ∧ (∀ resp : Str, hasPref (strOf "ERROR") resp = true → 6 ≤ resp.length →
        searchHandle resp = .err (resp.drop 6) ∧ countHandle resp = .err (resp.drop 6))
    ∧ searchHandle (strOf "ERRORS detected") = .err (strOf " detected")
    ∧ (searchHandle (strOf "ERROR") = .exn "out_of_range"
       ∧ countHandle (strOf "ERROR") = .exn "out_of_range") := by
  refine ⟨?_, ?_, by decide, by decide, by decide⟩
  · intro resp
    cases hp : hasPref (strOf "ERROR") resp
    · simp [checkSrvError, hp]
    · simp only [checkSrvError, hp, if_true]
      cases substrFrom resp 6 <;> simp
  · intro resp h h6
    constructor
    · simp only [searchHandle, checkSrvError_err h h6]
    · simp only [countHandle, checkSrvError_err h h6]

/-- C10 witness. -/
theorem C10_witness :
    hasPref (strOf "ERROR") (strOf "ERROR xy") = true
    ∧ 6 ≤ (strOf "ERROR xy").length
    ∧ searchHandle (strOf "ERROR xy") = .err ((strOf "ERROR xy").drop 6)
    ∧ countHandle (strOf "ERROR xy") = .err ((strOf "ERROR xy").drop 6) :=
  ⟨by decide, by decide,
    (C10_error_classification.2.1 (strOf "ERROR xy") (by decide) (by decide)).1,
    (C10_error_classification.2.1 (strOf "ERROR xy") (by decide) (by decide)).2⟩

/-- C3.  The sort/limit policy of the Search command builder: with no
AND/NOT/FILTER clauses the built line is the `SEARCH <table> <query>` head
followed exactly by the spec's sort clause and limit clause; in particular the
two example calls build `SEARCH docs hello LIMIT 20,10` and
`SEARCH docs hello SORT ASC LIMIT 20,10`. -/
theorem C3_search_sort_limit_policy :
    (∀ (table query sort_column : Str) (limit offset : Nat) (sort_desc : Bool),
        buildSearchCommand table query limit offset [] [] [] sort_column sort_desc =
          strOf "SEARCH " ++ table ++ [' '] ++ escapeQueryString query
            ++ sortClauseSpec sort_column sort_desc ++ limitClauseSpec limit offset)
    ∧ buildSearchCommand (strOf "docs") (strOf "hello") 10 20 [] [] [] [] true
        = strOf "SEARCH docs hello LIMIT 20,10"
    ∧ buildSearchCommand (strOf "docs") (strOf "hello") 10 20 [] [] [] [] false
        = strOf "SEARCH docs hello SORT ASC LIMIT 20,10" := by
  refine ⟨?_, by decide, by decide⟩
  intro table query sc limit offset sd
  have hsort :
      (if !sc.isEmpty then strOf " SORT " ++ sc ++ (if sd then strOf " DESC" else strOf " ASC")
       else if !sd then strOf " SORT ASC" else []) = sortClauseSpec sc sd := by
    cases sc <;> cases sd <;> simp [sortClauseSpec]
  have hlimit :
      (if limit > 0 && offset > 0 then
         strOf " LIMIT " ++ natStr offset ++ [','] ++ natStr limit
       else if limit > 0 then strOf " LIMIT " ++ natStr limit
       else []) = limitClauseSpec limit offset := by
    rcases limit with _ | l <;> rcases offset with _ | o <;> simp [limitClauseSpec]
  simp only [buildSearchCommand, hsort, hlimit, List.flatMap_nil, List.append_nil]

theorem needsQuoteChar_iff (c : Char) : needsQuoteChar c = true ↔ c ∈ specialChars := by
  simp only [needsQuoteChar, specialChars, Bool.or_eq_true, beq_iff_eq, List.mem_cons,
    List.not_mem_nil, or_false]
  tauto

theorem escBody_len (s : Str) : s.length ≤ (escBody s).length := by
  induction s with
  | nil => simp [escBody]
  | cons c cs ih =>
    by_cases h : (c == '"' || c == '\\') = true <;> simp [escBody, h] <;> omega

theorem escBody_flatMap (s : Str) :
    escBody s = s.flatMap fun c => if c = '"' ∨ c = '\\' then ['\\', c] else [c] := by
  induction s with
  | nil => rfl
  | cons c cs ih =>
    simp only [escBody, List.flatMap_cons, ih]
    congr 1
    by_cases h : c = '"' ∨ c = '\\'
    · rcases h with h | h <;> subst h <;> simp
    · push_neg at h
      simp [h.1, h.2]

/-- C5.  `EscapeQueryString(s) == s` iff `s` contains none of
space/tab/newline/carriage-return/double-quote/single-quote; otherwise the
result is `s` wrapped in double quotes with every internal `"` and `\`
preceded by a backslash. -/
theorem C5_escape_spec :
    (∀ s : Str, escapeQueryString s = s ↔ ∀ c ∈ s, c ∉ specialChars)
    ∧ (∀ s : Str, (∃ c ∈ s, c ∈ specialChars) →
        escapeQueryString s =
          '"' :: (s.flatMap fun c => if c = '"' ∨ c = '\\' then ['\\', c] else [c]) ++ ['"']) := by
  have hq : ∀ s : Str, s.any needsQuoteChar = true → escapeQueryString s ≠ s := by
    intro s h heq
    rw [escapeQueryString, if_pos h] at heq
    have hlen := congrArg List.length heq
    simp only [List.length_cons, List.length_append, List.length_singleton] at hlen
    have := escBody_len s
    omega
  constructor
  · intro s
    constructor
    · intro h c hc hmem
      have hany : s.any needsQuoteChar = true :=
        List.any_eq_true.mpr ⟨c, hc, (needsQuoteChar_iff c).mpr hmem⟩
      exact hq s hany h
    · intro h
      rw [escapeQueryString, if_neg]
      intro hany
      obtain ⟨c, hc, hn⟩ := List.any_eq_true.mp hany
      exact h c hc ((needsQuoteChar_iff c).mp hn)
  · intro s hex
    obtain ⟨c, hc, hsp⟩ := hex
    have hany : s.any needsQuoteChar = true :=
      List.any_eq_true.mpr ⟨c, hc, (needsQuoteChar_iff c).mpr hsp⟩
    rw [escapeQueryString, if_pos hany, escBody_flatMap]

/-- C5 witness. -/
theorem C5_witness :
    (∃ c ∈ strOf "a b", c ∈ specialChars)
    ∧ escapeQueryString (strOf "a b") =
        '"' :: ((strOf "a b").flatMap fun c => if c = '"' ∨ c = '\\' then ['\\', c] else [c])
          ++ ['"'] :=
  ⟨by decide, C5_escape_spec.2 (strOf "a b") (by decide)⟩

theorem ngrams_len_nat (n : Nat) (hn : 1 ≤ n) :
    ∀ t : Str, (GenerateNgrams t n).length = t.length + 1 - n := by
  intro t
  induction t with
  | nil => simp [GenerateNgrams]; omega
  | cons c cs ih =>
    by_cases h : cs.length + 1 < n
    · simp only [GenerateNgrams, List.length_cons, if_pos h, List.length_nil]
      omega
    · simp only [GenerateNgrams, List.length_cons, if_neg h, ih]
      omega

/-- C9.  For every text `t` (as a codepoint sequence) and every `n ≥ 1` the
number of n-grams equals `max(0, codepoints(t) − n + 1)`, and the output is
empty whenever `t` has fewer than `n` codepoints.  (`GenerateNgrams` is
modelled from the spec: only its declaration is under `src/`.) -/
theorem C9_ngram_count (t : Str) (n : Nat) (hn : 1 ≤ n) :
    ((GenerateNgrams t n).length : ℤ) = max 0 ((t.length : ℤ) - (n : ℤ) + 1)
    ∧ (t.length < n → GenerateNgrams t n = []) := by
  constructor
  · rw [ngrams_len_nat n hn t]
    omega
  · intro h
    cases t with
    | nil => rfl
    | cons c cs => simp only [GenerateNgrams, if_pos h]

theorem headNot_notWS_ws_cons (l : Str) : headNot (fun c => !isWS c) (' ' :: l) := by
  intro x hx
  simp only [List.head?_cons, Option.some.injEq] at hx
  rw [← hx]
  decide

theorem findIdx?_append_mark {α : Type} (p : α → Bool) (ids : List α) (x : α) (rest : List α)
    (h : ∀ a ∈ ids, p a = false) (hx : p x = true) :
    ∀ i : Nat, List.findIdx? p (ids ++ x :: rest) i = some (ids.length + i) := by
  induction ids with
  | nil => intro i; simp [List.findIdx?_cons, hx]
  | cons a as ih =>
    intro i
    rw [List.cons_append, List.findIdx?_cons, if_neg (by simp [h a (by simp)])]
    rw [ih (fun y hy => h y (by simp [hy])) (i + 1)]
    congr 1
    simp only [List.length_cons]
    omega

theorem splitEq_key (k v : Str) (hk : ∀ c ∈ k, (c == '=') = false) :
    splitEq (k ++ '=' :: v) = some (k, v) := by
  simp only [splitEq, findIdx?_append_mark _ k '=' v hk (by decide) 0, Nat.add_zero]
  rw [take_len_append, drop_append_mark]

theorem readU64I_failhead (c : Char) (l : Str) (hws : isWS c = false) (hd : isDigitC c = false)
    (hm : (c == '-') = false) (hp : (c == '+') = false) :
    readU64I ⟨c :: l, false⟩ = (0, ⟨c :: l, true⟩) := by
  have hdrop : List.dropWhile isWS (c :: l) = c :: l := by
    rw [List.dropWhile_cons, if_neg (by simp [hws])]
  have hsign : splitSign (c :: l) = (false, c :: l) := by
    simp [splitSign, hm, hp]
  have htake : List.takeWhile isDigitC (c :: l) = [] := by
    rw [List.takeWhile_cons, if_neg (by simp [hd])]
  simp only [readU64I, Bool.false_eq_true, if_false, hdrop, hsign, htake, List.isEmpty_nil,
    if_true]

theorem headNot_mkTail_notWS (toks : List Str) : headNot (fun c => !isWS c) (mkTail toks) := by
  cases toks with
  | nil => intro x hx; simp [mkTail] at hx
  | cons t ts =>
    rw [show mkTail (t :: ts) = ' ' :: (t ++ mkTail ts) by simp [mkTail]]
    exact headNot_notWS_ws_cons _

theorem headNot_mkTail_digit (toks : List Str) : headNot isDigitC (mkTail toks) := by
  intro x hx
  have h := headNot_mkTail_notWS toks x hx
  simp only [Bool.not_eq_false'] at h
  exact ws_not_digit h

/-- Evaluates `searchHandle` on a well-formed `OK RESULTS` response down to
the token-level processing of its tail. -/
theorem searchHandle_shape (ds : Str) (toks : List Str) (hds1 : ds ≠ [])
    (hds2 : ∀ c ∈ ds, isDigitC c = true) (hds3 : natOfDigits ds < 2 ^ 64)
    (htoks : ∀ t ∈ toks, IsTok t) :
    searchHandle (mkResultsResp ds toks) =
      if debugIndex toks < toks.length then
        match ParseDebugInfo toks (debugIndex toks) with
        | .error e => .exn e
        | .ok d => .ok ⟨natOfDigits ds, toks.take (debugIndex toks), d⟩
      else .ok ⟨natOfDigits ds, toks.take (debugIndex toks), none⟩ := by
  have hmk : mkResultsResp ds toks
      = strOf "OK" ++ (' ' :: (strOf "RESULTS" ++ (' ' :: (ds ++ mkTail toks)))) := by
    rw [mkResultsResp, show strOf "OK RESULTS "
        = strOf "OK" ++ (' ' :: (strOf "RESULTS" ++ [' '])) by decide]
    simp
  rw [hmk]
  have hErr : hasPref (strOf "ERROR")
      (strOf "OK" ++ (' ' :: (strOf "RESULTS" ++ (' ' :: (ds ++ mkTail toks))))) = false := by
    rw [show strOf "OK" = 'O' :: strOf "K" by decide, List.cons_append]
    exact hasPref_ERROR_O _
  have hOk : hasPref (strOf "OK RESULTS")
      (strOf "OK" ++ (' ' :: (strOf "RESULTS" ++ (' ' :: (ds ++ mkTail toks))))) = true := by
    rw [show strOf "OK" ++ (' ' :: (strOf "RESULTS" ++ (' ' :: (ds ++ mkTail toks))))
        = (strOf "OK" ++ (' ' :: strOf "RESULTS")) ++ (' ' :: (ds ++ mkTail toks)) by simp,
      show strOf "OK RESULTS" = strOf "OK" ++ (' ' :: strOf "RESULTS") by decide]
    exact hasPref_append _ _
  have r1 : readTokenI ⟨strOf "OK" ++ (' ' :: (strOf "RESULTS" ++ (' ' :: (ds ++ mkTail toks)))),
      false⟩ = (strOf "OK", ⟨' ' :: (strOf "RESULTS" ++ (' ' :: (ds ++ mkTail toks))), false⟩) :=
    readTokenI_tok _ _ (by decide) (by decide) (headNot_notWS_ws_cons _)
  have r2 : readTokenI ⟨strOf "RESULTS" ++ (' ' :: (ds ++ mkTail toks)), false⟩
      = (strOf "RESULTS", ⟨' ' :: (ds ++ mkTail toks), false⟩) :=
    readTokenI_tok _ _ (by decide) (by decide) (headNot_notWS_ws_cons _)
  have r3 : readU64I ⟨ds ++ mkTail toks, false⟩ = (natOfDigits ds, ⟨mkTail toks, false⟩) :=
    readU64I_digits ds (mkTail toks) hds1 hds2 (headNot_mkTail_digit toks) hds3
  have htok : readAllTokens ⟨mkTail toks, false⟩ = toks := by
    rw [show readAllTokens ⟨mkTail toks, false⟩ = wordsOf (mkTail toks) from rfl]
    exact wordsOf_mkTail toks htoks
  simp only [searchHandle, checkSrvError_noErr hErr, hOk, if_true, r1, readTokenI_ws, r2,
    readU64I_ws, r3, htok]

/-- C2 counterexample.  The response `OK COUNT abc` makes `Count` succeed
with count 0: the failed numeric extraction silently leaves the
pre-initialised zero in place instead of propagating an error. -/
theorem C2_counterexample : countHandle (strOf "OK COUNT abc") = .ok ⟨0, none⟩ := by
  decide

/-- C2 (amended).  Numeric DEBUG key=value fields that fail to parse do
propagate to the caller (`std::stoul`/`std::stod` throw, and the exception
escapes the operation); but the count token of `OK RESULTS <n>` /
`OK COUNT <n>` is read with `operator>>`, whose failure silently leaves the
pre-initialised 0 (and stops all further token reading) rather than
producing an error. -/
theorem C2_numeric_parse :
    (∀ v : Str, stoulM v = .error "invalid_argument" →
        ParseDebugInfo [strOf "DEBUG", strOf "terms=" ++ v] 0 = .error "invalid_argument")
    ∧ (∀ v : Str, stodM v = .error "invalid_argument" →
        ParseDebugInfo [strOf "DEBUG", strOf "query_time=" ++ v] 0
          = .error "invalid_argument")
    ∧ searchHandle (strOf "OK RESULTS 1 x DEBUG terms=zz") = .exn "invalid_argument"
    ∧ (∀ (c : Char) (t rest : Str), isWS c = false → isDigitC c = false →
        (c == '-') = false → (c == '+') = false →
        countHandle (strOf "OK COUNT " ++ (c :: t) ++ rest) = .ok ⟨0, none⟩) := by
  refine ⟨?_, ?_, by decide, ?_⟩
  · intro v hv
    have hsplit : splitEq (strOf "terms=" ++ v) = some (strOf "terms", v) := by
      rw [show strOf "terms=" ++ v = strOf "terms" ++ '=' :: v by
        rw [show strOf "terms=" = strOf "terms" ++ ['='] by decide]; simp]
      exact splitEq_key _ _ (by decide)
    have hupd : updateDebug {} (strOf "terms=" ++ v) = .error "invalid_argument" := by
      simp only [updateDebug, hsplit,
        show (strOf "terms" == strOf "query_time") = false by decide,
        show (strOf "terms" == strOf "index_time") = false by decide,
        show (strOf "terms" == strOf "filter_time") = false by decide,
        show (strOf "terms" == strOf "terms") = true by decide,
        Bool.false_eq_true, if_false, if_true, hv, Except.map]
    simp only [ParseDebugInfo, List.getElem?_cons_zero, beq_self_eq_true, if_true]
    rw [show ([strOf "DEBUG", strOf "terms=" ++ v]).drop (0 + 1) = [strOf "terms=" ++ v]
      from rfl]
    simp only [foldDebug, hupd]
  · intro v hv
    have hsplit : splitEq (strOf "query_time=" ++ v) = some (strOf "query_time", v) := by
      rw [show strOf "query_time=" ++ v = strOf "query_time" ++ '=' :: v by
        rw [show strOf "query_time=" = strOf "query_time" ++ ['='] by decide]; simp]
      exact splitEq_key _ _ (by decide)
    have hupd : updateDebug {} (strOf "query_time=" ++ v) = .error "invalid_argument" := by
      simp only [updateDebug, hsplit,
        show (strOf "query_time" == strOf "query_time") = true by decide,
        if_true, hv, Except.map]
    simp only [ParseDebugInfo, List.getElem?_cons_zero, beq_self_eq_true, if_true]
    rw [show ([strOf "DEBUG", strOf "query_time=" ++ v]).drop (0 + 1)
        = [strOf "query_time=" ++ v] from rfl]
    simp only [foldDebug, hupd]
  · intro c t rest hws hd hm hp
    have hra : strOf "OK COUNT " ++ (c :: t) ++ rest
        = strOf "OK" ++ (' ' :: (strOf "COUNT" ++ (' ' :: (c :: (t ++ rest))))) := by
      rw [show strOf "OK COUNT " = strOf "OK" ++ (' ' :: (strOf "COUNT" ++ [' '])) by decide]
      simp
    rw [hra]
    have hErr : hasPref (strOf "ERROR")
        (strOf "OK" ++ (' ' :: (strOf "COUNT" ++ (' ' :: (c :: (t ++ rest)))))) = false := by
      rw [show strOf "OK" = 'O' :: strOf "K" by decide, List.cons_append]
      exact hasPref_ERROR_O _
    have hOk : hasPref (strOf "OK COUNT")
        (strOf "OK" ++ (' ' :: (strOf "COUNT" ++ (' ' :: (c :: (t ++ rest)))))) = true := by
      rw [show strOf "OK" ++ (' ' :: (strOf "COUNT" ++ (' ' :: (c :: (t ++ rest)))))
          = (strOf "OK" ++ (' ' :: strOf "COUNT")) ++ (' ' :: (c :: (t ++ rest))) by simp,
        show strOf "OK COUNT" = strOf "OK" ++ (' ' :: strOf "COUNT") by decide]
      exact hasPref_append _ _
    have r1 : readTokenI ⟨strOf "OK" ++ (' ' :: (strOf "COUNT" ++ (' ' :: (c :: (t ++ rest))))),
        false⟩ = (strOf "OK", ⟨' ' :: (strOf "COUNT" ++ (' ' :: (c :: (t ++ rest)))), false⟩) :=
      readTokenI_tok _ _ (by decide) (by decide) (headNot_notWS_ws_cons _)
    have r2 : readTokenI ⟨strOf "COUNT" ++ (' ' :: (c :: (t ++ rest))), false⟩
        = (strOf "COUNT", ⟨' ' :: (c :: (t ++ rest)), false⟩) :=
      readTokenI_tok _ _ (by decide) (by decide) (headNot_notWS_ws_cons _)
    have r3 : readU64I ⟨c :: (t ++ rest), false⟩ = (0, ⟨c :: (t ++ rest), true⟩) :=
      readU64I_failhead c (t ++ rest) hws hd hm hp
    simp only [countHandle, checkSrvError_noErr hErr, hOk, if_true, r1, readTokenI_ws, r2,
      readU64I_ws, r3, readAllTokens, if_true, Bool.false_eq_true, if_false]

/-- C2 witness. -/
theorem C2_witness :
    stoulM (strOf "zz") = .error "invalid_argument"
    ∧ ParseDebugInfo [strOf "DEBUG", strOf "terms=" ++ strOf "zz"] 0
        = .error "invalid_argument" :=
  ⟨by decide, C2_numeric_parse.1 (strOf "zz") (by decide)⟩

/-- C4.  Parsing `OK RESULTS <n> ...`: the count token gives `total_count`;
without a `DEBUG` marker all trailing tokens become the ordered result ids
and no debug info is produced; with a marker, the ids are exactly the tokens
before it and a DebugInfo is produced from the key=value pairs after it;
tokens whose key is unknown are ignored; and the two concrete examples parse
as the spec states. -/
theorem C4_results_parse :
    (∀ (ds : Str) (toks : List Str), ds ≠ [] → (∀ c ∈ ds, isDigitC c = true) →
        natOfDigits ds < 2 ^ 64 → (∀ t ∈ toks, IsTok t) → strOf "DEBUG" ∉ toks →
        searchHandle (mkResultsResp ds toks) = .ok ⟨natOfDigits ds, toks, none⟩)
    ∧ (∀ (ds : Str) (ids kvs : List Str), ds ≠ [] → (∀ c ∈ ds, isDigitC c = true) →
        natOfDigits ds < 2 ^ 64 → (∀ t ∈ ids ++ strOf "DEBUG" :: kvs, IsTok t) →
        strOf "DEBUG" ∉ ids →
        ∀ r : SearchResponse,
          searchHandle (mkResultsResp ds (ids ++ strOf "DEBUG" :: kvs)) = .ok r →
            r.total_count = natOfDigits ds ∧ r.results = ids ∧ r.debug.isSome = true)
    ∧ (∀ (info : DebugInfo) (k v : Str), (∀ c ∈ k, (c == '=') = false) →
        k ∉ knownDebugKeys → updateDebug info (k ++ '=' :: v) = .ok info)
    ∧ searchHandle (strOf "OK RESULTS 3 a1 a2 a3")
        = .ok ⟨3, [strOf "a1", strOf "a2", strOf "a3"], none⟩
    ∧ searchHandle (strOf "OK RESULTS 2 x1 x2 DEBUG query_time=1.5 terms=3")
        = .ok ⟨2, [strOf "x1", strOf "x2"],
            some { query_time_ms := some ((3 : ℚ) / 2), terms := some 3 }⟩ := by
  refine ⟨?_, ?_, ?_, by decide, by decide⟩
  · intro ds toks hds1 hds2 hds3 htoks hnd
    rw [searchHandle_shape ds toks hds1 hds2 hds3 htoks]
    have hidx : debugIndex toks = toks.length :=
      findIdx_all_false toks _ (fun t ht =>
        beq_eq_false_iff_ne.mpr (fun he => hnd (he ▸ ht)))
    rw [hidx, if_neg (Nat.lt_irrefl _), List.take_length]
  · intro ds ids kvs hds1 hds2 hds3 htoks hnd r hr
    rw [searchHandle_shape ds (ids ++ strOf "DEBUG" :: kvs) hds1 hds2 hds3 htoks] at hr
    have hidx : debugIndex (ids ++ strOf "DEBUG" :: kvs) = ids.length :=
      findIdx_append_mark ids _ kvs _
        (fun t ht => beq_eq_false_iff_ne.mpr (fun he => hnd (he ▸ ht)))
        (beq_self_eq_true _)
    have hlt : ids.length < (ids ++ strOf "DEBUG" :: kvs).length := by
      simp only [List.length_append, List.length_cons]
      omega
    rw [hidx, if_pos hlt] at hr
    cases hfd : foldDebug {} kvs with
    | error e =>
      have hpd : ParseDebugInfo (ids ++ strOf "DEBUG" :: kvs) ids.length = .error e := by
        simp only [ParseDebugInfo, getElem?_append_mark, beq_self_eq_true, if_true,
          drop_append_mark, hfd]
      rw [hpd] at hr
      exact absurd hr (by simp)
    | ok info =>
      have hpd : ParseDebugInfo (ids ++ strOf "DEBUG" :: kvs) ids.length
          = .ok (some info) := by
        simp only [ParseDebugInfo, getElem?_append_mark, beq_self_eq_true, if_true,
          drop_append_mark, hfd]
      rw [hpd, take_len_append] at hr
      cases hr
      exact ⟨rfl, rfl, rfl⟩
  · intro info k v hknot hunk
    have hne : ∀ s ∈ knownDebugKeys, (k == s) = false := fun s hs =>
      beq_eq_false_iff_ne.mpr (fun he => hunk (he ▸ hs))
    simp only [updateDebug, splitEq_key k v hknot,
      hne (strOf "query_time") (by simp [knownDebugKeys]),
      hne (strOf "index_time") (by simp [knownDebugKeys]),
      hne (strOf "filter_time") (by simp [knownDebugKeys]),
      hne (strOf "terms") (by simp [knownDebugKeys]),
      hne (strOf "ngrams") (by simp [knownDebugKeys]),
      hne (strOf "candidates") (by simp [knownDebugKeys]),
      hne (strOf "after_intersection") (by simp [knownDebugKeys]),
      hne (strOf "after_not") (by simp [knownDebugKeys]),
      hne (strOf "after_filters") (by simp [knownDebugKeys]),
      hne (strOf "final") (by simp [knownDebugKeys]),
      hne (strOf "optimization") (by simp [knownDebugKeys]),
      Bool.false_eq_true, if_false]

/-- C4 witness. -/
theorem C4_witness :
    strOf "7" ≠ []
    ∧ (∀ c ∈ strOf "7", isDigitC c = true)
    ∧ natOfDigits (strOf "7") < 2 ^ 64
    ∧ (∀ t ∈ ([strOf "a"] : List Str), IsTok t)
    ∧ strOf "DEBUG" ∉ ([strOf "a"] : List Str)
    ∧ searchHandle (mkResultsResp (strOf "7") [strOf "a"])
        = .ok ⟨natOfDigits (strOf "7"), [strOf "a"], none⟩ :=
  ⟨by decide, by decide, by decide, by decide, by decide,
    C4_results_parse.1 (strOf "7") [strOf "a"] (by decide) (by decide) (by decide)
      (by decide) (by decide)⟩

/-- C9 witness. -/
theorem C9_witness :
    1 ≤ 2
    ∧ (((GenerateNgrams (strOf "abc") 2).length : ℤ)
          = max 0 (((strOf "abc").length : ℤ) - (2 : ℤ) + 1)
       ∧ ((strOf "abc").length < 2 → GenerateNgrams (strOf "abc") 2 = [])) :=
  ⟨by decide, C9_ngram_count (strOf "abc") 2 (by decide)⟩

end Mygram
